import Mathlib

/-!
# Formal model of the B3 stock-analysis core

Shallow embedding of the computational core of `src/app.py`: percentage
change, annualized volatility, the zero-drift geometric-Brownian-motion
Monte Carlo price-path simulator, the target-hit probability estimate
computed in `main`, and the DIF26 correlation/trend analysis.

Floating-point numbers are modelled as real numbers.  The NaN value that
pandas produces for the standard deviation of fewer than two samples is
modelled by `Option.none`.  The random draws of `np.random.normal` are
modelled as an explicit matrix of reals, indexed by (trial, day).
-/

namespace B3

/-- Error taxonomy of the specification (section 7). -/
inductive PriceError where
  | divisionByZero
  | insufficientData
  | invalidParameter
  deriving DecidableEq, Repr

/-- `calculate_percentage_change(current_price, target_price)` from
`src/app.py` lines 27-28: `((target_price - current_price) / current_price) * 100`.
Python raises `ZeroDivisionError` when the denominator is zero; that raise is
modelled as the `Except.error` branch. -/
noncomputable def calculate_percentage_change (current_price target_price : ℝ) :
    Except PriceError ℝ :=
  if current_price = 0 then Except.error PriceError.divisionByZero
  else Except.ok ((target_price - current_price) / current_price * 100)

/-- `data['Close'].pct_change().dropna()` from `src/app.py` line 31: the
period-over-period percentage returns, with the undefined first entry
(the leading NaN) dropped. -/
noncomputable def pct_change (prices : List ℝ) : List ℝ :=
  List.zipWith (fun prev cur => (cur - prev) / prev) prices prices.tail

/-- Arithmetic mean of a list of reals. -/
noncomputable def listMean (l : List ℝ) : ℝ := l.sum / l.length

/-- `Series.std()` of pandas with the default `ddof = 1`: the sample standard
deviation.  With fewer than two samples pandas returns the float NaN,
modelled here as `none`. -/
noncomputable def sampleStd (l : List ℝ) : Option ℝ :=
  if 2 ≤ l.length then
    some (Real.sqrt ((l.map (fun x => (x - listMean l) ^ 2)).sum / ((l.length : ℝ) - 1)))
  else none

/-- `calculate_volatility(data)` from `src/app.py` lines 30-33:
`returns.std() * np.sqrt(252)` over the return series.  NaN propagates
through the multiplication, hence the `Option.map`. -/
noncomputable def calculate_volatility (prices : List ℝ) : Option ℝ :=
  (sampleStd (pct_change prices)).map (fun s => s * Real.sqrt 252)

/-- One cell of the `random_walks` matrix from `src/app.py` lines 39-42:
`exp((mu - 0.5 * volatility**2) * dt + volatility * sqrt(dt) * z)` with
`mu = 0` and `dt = 1/252`. -/
noncomputable def gbm_factor (volatility z : ℝ) : ℝ :=
  Real.exp ((0 - 0.5 * volatility ^ 2) * (1 / 252) +
    volatility * Real.sqrt (1 / 252) * z)

/-- `np.cumprod` along one row: running products of the factors. -/
noncomputable def cumprod : List ℝ → List ℝ
  | [] => []
  | x :: xs => x :: (cumprod xs).map (fun y => x * y)

/-- `monte_carlo_simulation(current_price, volatility, days, num_simulations)`
from `src/app.py` lines 35-46, with the standard-normal draw for
(trial `i`, day `k`) supplied explicitly as `z i k`:
`price_paths = current_price * np.cumprod(random_walks, axis=1)`.
The Python function performs no validation of its parameters. -/
noncomputable def monte_carlo_simulation (current_price volatility : ℝ)
    (days num_simulations : ℕ) (z : ℕ → ℕ → ℝ) : List (List ℝ) :=
  (List.range num_simulations).map (fun i =>
    (cumprod ((List.range days).map (fun k => gbm_factor volatility (z i k)))).map
      (fun p => current_price * p))

/-- Number of elements of the list that are `≥ target`: the sum of the boolean
comparison matrix `mc_simulations[:, -1] >= target_price`. -/
noncomputable def countGE (target : ℝ) : List ℝ → ℕ
  | [] => 0
  | x :: xs => (if target ≤ x then 1 else 0) + countGE target xs

/-- `mc_simulations[:, -1]`: the terminal (last-day) price of every trial. -/
noncomputable def terminal_prices (matrix : List (List ℝ)) : List ℝ :=
  matrix.map (fun row => row.getLastD 0)

/-- `np.mean(mc_simulations[:, -1] >= target_price)` from `src/app.py`
lines 115-116: the fraction of trials whose terminal price reaches the
target. -/
noncomputable def estimate_target_probability (matrix : List (List ℝ))
    (target : ℝ) : ℝ :=
  (countGE target (terminal_prices matrix) : ℝ) / (matrix.length : ℝ)

/-- Qualitative correlation label of `analyze_dif26_impact`. -/
inductive CorrelationBand where
  | strongNegative
  | strongPositive
  | weak
  deriving DecidableEq, Repr

/-- Qualitative trend label of `analyze_dif26_impact`. -/
inductive TrendDirection where
  | rising
  | falling
  | flat
  deriving DecidableEq, Repr

/-- Outcome of `analyze_dif26_impact`: either the explicit
insufficient-data message or a report made of the two labels. -/
inductive Dif26Analysis where
  | insufficientData
  | report : CorrelationBand → TrendDirection → Dif26Analysis
  deriving DecidableEq, Repr

/-- `pd.concat([stock_data['Close'], dif26_data], axis=1).dropna()` from
`src/app.py` line 50: outer join on the date index followed by dropping
every row where either side is missing, i.e. the inner join on shared
dates.  A series is a list of (date, close) pairs with dates as naturals. -/
def align_series (stock dif26 : List (ℕ × ℝ)) : List (ℝ × ℝ) :=
  stock.filterMap (fun dp => (List.lookup dp.1 dif26).map (fun q => (dp.2, q)))

/-- Pearson correlation coefficient, as `Series.corr` of pandas. -/
noncomputable def pearson_corr (pairs : List (ℝ × ℝ)) : ℝ :=
  (List.zipWith
      (fun a b => (a - listMean (pairs.map Prod.fst)) * (b - listMean (pairs.map Prod.snd)))
      (pairs.map Prod.fst) (pairs.map Prod.snd)).sum /
    (Real.sqrt (((pairs.map Prod.fst).map
        (fun a => (a - listMean (pairs.map Prod.fst)) ^ 2)).sum) *
      Real.sqrt (((pairs.map Prod.snd).map
        (fun b => (b - listMean (pairs.map Prod.snd)) ^ 2)).sum))

/-- The three correlation bands of `src/app.py` lines 59-64. -/
noncomputable def correlation_band (c : ℝ) : CorrelationBand :=
  if c < -0.5 then CorrelationBand.strongNegative
  else if 0.5 < c then CorrelationBand.strongPositive
  else CorrelationBand.weak

/-- `dif26_trend = dif26_data.iloc[-1] - dif26_data.iloc[0] if len(dif26_data) > 1 else 0`
from `src/app.py` line 56. -/
noncomputable def dif26_trend (dif26 : List (ℕ × ℝ)) : ℝ :=
  if 1 < dif26.length then (dif26.getLastD (0, 0)).2 - (dif26.headD (0, 0)).2 else 0

/-- The three trend branches of `src/app.py` lines 66-71. -/
noncomputable def trend_direction (t : ℝ) : TrendDirection :=
  if 0 < t then TrendDirection.rising
  else if t < 0 then TrendDirection.falling
  else TrendDirection.flat

/-- `analyze_dif26_impact(stock_data, dif26_data)` from `src/app.py`
lines 48-73: align the series, return the insufficient-data message when
the alignment is empty, and otherwise the pair of qualitative labels. -/
noncomputable def analyze_dif26_impact (stock dif26 : List (ℕ × ℝ)) : Dif26Analysis :=
  if (align_series stock dif26).isEmpty then Dif26Analysis.insufficientData
  else Dif26Analysis.report (correlation_band (pearson_corr (align_series stock dif26)))
    (trend_direction (dif26_trend dif26))

/-! ## Helper lemmas -/

theorem cumprod_length (l : List ℝ) : (cumprod l).length = l.length := by
  induction l with
  | nil => rfl
  | cons x xs ih => simp [cumprod, ih]

theorem getD_map_of_lt (f : ℝ → ℝ) (l : List ℝ) (n : ℕ) (h : n < l.length) (d e : ℝ) :
    (l.map f).getD n d = f (l.getD n e) := by
  rw [List.getD_eq_getElem _ _ (by simpa using h), List.getD_eq_getElem _ _ h,
    List.getElem_map]

theorem cumprod_getD (l : List ℝ) (t : ℕ) (ht : t < l.length) :
    (cumprod l).getD t 1 = ∏ k in Finset.range (t + 1), l.getD k 1 := by
  induction l generalizing t with
  | nil => exact absurd ht (by simp)
  | cons x xs ih =>
    cases t with
    | zero => simp [cumprod]
    | succ t =>
      have ht' : t < xs.length := by simpa using ht
      have hmap : ((cumprod xs).map (fun y => x * y)).getD t 1 = x * (cumprod xs).getD t 1 :=
        getD_map_of_lt _ _ _ (by rw [cumprod_length]; exact ht') 1 1
      calc (cumprod (x :: xs)).getD (t + 1) 1
          = ((cumprod xs).map (fun y => x * y)).getD t 1 := by simp [cumprod]
        _ = x * (cumprod xs).getD t 1 := hmap
        _ = x * ∏ k in Finset.range (t + 1), xs.getD k 1 := by rw [ih t ht']
        _ = ∏ k in Finset.range (t + 1 + 1), (x :: xs).getD k 1 := by
            conv_rhs => rw [Finset.prod_range_succ']
            simp [mul_comm]

theorem cumprod_pos (l : List ℝ) (h : ∀ x ∈ l, 0 < x) : ∀ y ∈ cumprod l, 0 < y := by
  induction l with
  | nil => simp [cumprod]
  | cons x xs ih =>
    intro y hy
    simp only [cumprod, List.mem_cons, List.mem_map] at hy
    rcases hy with rfl | ⟨a, ha, rfl⟩
    · exact h y (by simp)
    · exact mul_pos (h x (by simp)) (ih (fun b hb => h b (by simp [hb])) a ha)

theorem gbm_factor_pos (volatility z : ℝ) : 0 < gbm_factor volatility z :=
  Real.exp_pos _

theorem monte_carlo_row (current_price volatility : ℝ) (days num_simulations : ℕ)
    (z : ℕ → ℕ → ℝ) (i : ℕ) (hi : i < num_simulations) :
    (monte_carlo_simulation current_price volatility days num_simulations z).getD i [] =
      (cumprod ((List.range days).map (fun k => gbm_factor volatility (z i k)))).map
        (fun p => current_price * p) := by
  unfold monte_carlo_simulation
  rw [List.getD_eq_getElem _ _ (by simpa using hi)]
  simp

/-! ## Claim theorems: Monte Carlo simulator -/

/-- C1: the Monte Carlo simulator builds the cell of trial `i` and day `t`
(0-indexed here, so day `t` is the (t+1)-st day) as the current price times
the cumulative product, along the day axis, of the per-cell factors
`exp((0 - 0.5·σ²)·dt + σ·√dt·Z)` with `dt = 1/252` and `Z i k` the draw of
cell (trial `i`, day `k`). -/
theorem monte_carlo_cell_formula (current_price volatility : ℝ)
    (days num_simulations : ℕ) (z : ℕ → ℕ → ℝ) (i t : ℕ)
    (hi : i < num_simulations) (ht : t < days) :
    ((monte_carlo_simulation current_price volatility days num_simulations z).getD
        i []).getD t 0 =
      current_price * ∏ k in Finset.range (t + 1),
        Real.exp ((0 - 0.5 * volatility ^ 2) * (1 / 252) +
          volatility * Real.sqrt (1 / 252) * z i k) := by
  rw [monte_carlo_row _ _ _ _ _ _ hi]
  have hlen : t < (cumprod ((List.range days).map
      (fun k => gbm_factor volatility (z i k)))).length := by
    rw [cumprod_length]; simpa using ht
  rw [getD_map_of_lt _ _ _ hlen 0 1, cumprod_getD _ _ (by simpa using ht)]
  congr 1
  refine Finset.prod_congr rfl (fun k hk => ?_)
  have hk' : k < days := Nat.lt_of_lt_of_le (Finset.mem_range.mp hk) ht
  rw [List.getD_eq_getElem _ _ (by simpa using hk')]
  simp [gbm_factor]

/-- Witness for C1 at a concrete input. -/
theorem monte_carlo_cell_formula_witness :
    ((monte_carlo_simulation 1 0 1 1 (fun _ _ => 0)).getD 0 []).getD 0 0 =
      1 * ∏ k in Finset.range (0 + 1),
        Real.exp ((0 - 0.5 * (0:ℝ) ^ 2) * (1 / 252) +
          0 * Real.sqrt (1 / 252) * 0) :=
  monte_carlo_cell_formula 1 0 1 1 (fun _ _ => 0) 0 0 (by decide) (by decide)

/-- C2: for valid parameters the simulation matrix has exactly
`num_simulations` rows of length `days` each, and every cell is strictly
positive. -/
theorem monte_carlo_shape_pos (current_price volatility : ℝ)
    (days num_simulations : ℕ) (z : ℕ → ℕ → ℝ)
    (hp : 0 < current_price) (hv : 0 ≤ volatility)
    (hd : 0 < days) (hn : 0 < num_simulations) :
    (monte_carlo_simulation current_price volatility days num_simulations z).length =
        num_simulations ∧
      ∀ row ∈ monte_carlo_simulation current_price volatility days num_simulations z,
        row.length = days ∧ ∀ x ∈ row, 0 < x := by
  constructor
  · simp [monte_carlo_simulation]
  · intro row hrow
    simp only [monte_carlo_simulation, List.mem_map, List.mem_range] at hrow
    obtain ⟨i, hi, rfl⟩ := hrow
    constructor
    · simp [cumprod_length]
    · intro x hx
      simp only [List.mem_map] at hx
      obtain ⟨q, hq, rfl⟩ := hx
      have hall : ∀ a ∈ (List.range days).map (fun k => gbm_factor volatility (z i k)),
          0 < a := by
        intro a ha
        simp only [List.mem_map, List.mem_range] at ha
        obtain ⟨k, hk, rfl⟩ := ha
        exact gbm_factor_pos _ _
      exact mul_pos hp (cumprod_pos _ hall q hq)

/-- Witness for C2 at a concrete input. -/
theorem monte_carlo_shape_pos_witness :
    (monte_carlo_simulation 1 0 1 1 (fun _ _ => 0)).length = 1 ∧
      ∀ row ∈ monte_carlo_simulation 1 0 1 1 (fun _ _ => 0),
        row.length = 1 ∧ ∀ x ∈ row, 0 < x :=
  monte_carlo_shape_pos 1 0 1 1 (fun _ _ => 0) (by norm_num) (by norm_num)
    (by decide) (by decide)

/-- C3 (code bug): the Python `monte_carlo_simulation` performs no parameter
validation, so with the invalid starting price `-1` it returns the matrix
`[[-1]]` instead of raising `InvalidParameterError`. -/
theorem monte_carlo_no_validation :
    monte_carlo_simulation (-1) 0 1 1 (fun _ _ => 0) = [[-1]] := by
  norm_num [monte_carlo_simulation, cumprod, gbm_factor, List.range_succ,
    Real.exp_zero]

/-- C10: scaling the starting price by `c` scales every cell of the
simulation matrix by `c`, for a fixed matrix of random draws. -/
theorem monte_carlo_scaling (current_price volatility c : ℝ)
    (days num_simulations : ℕ) (z : ℕ → ℕ → ℝ) (hc : 0 < c) :
    monte_carlo_simulation (c * current_price) volatility days num_simulations z =
      (monte_carlo_simulation current_price volatility days num_simulations z).map
        (fun row => row.map (fun x => c * x)) := by
  simp only [monte_carlo_simulation, List.map_map]
  refine List.map_congr_left (fun i _ => ?_)
  simp only [Function.comp, List.map_map]
  exact List.map_congr_left (fun y _ => mul_assoc c current_price y)

/-- Witness for C10 at a concrete input. -/
theorem monte_carlo_scaling_witness :
    monte_carlo_simulation (2 * 1) 0 1 1 (fun _ _ => 0) =
      (monte_carlo_simulation 1 0 1 1 (fun _ _ => 0)).map
        (fun row => row.map (fun x => 2 * x)) :=
  monte_carlo_scaling 1 0 2 1 1 (fun _ _ => 0) (by norm_num)

/-! ## Claim theorems: statistics engine -/

theorem pct_change_length (prices : List ℝ) :
    (pct_change prices).length = prices.length - 1 := by
  simp only [pct_change, List.length_zipWith, List.length_tail]
  omega

theorem pct_change_replicate (n : ℕ) (c : ℝ) :
    pct_change (List.replicate n c) = List.replicate (n - 1) 0 := by
  simp [pct_change, List.tail_replicate, List.zipWith_replicate]

theorem listMean_replicate_zero (m : ℕ) : listMean (List.replicate m (0:ℝ)) = 0 := by
  simp [listMean, List.sum_replicate]

theorem sampleStd_replicate_zero (m : ℕ) (hm : 2 ≤ m) :
    sampleStd (List.replicate m (0:ℝ)) = some 0 := by
  rw [sampleStd, if_pos (by simpa using hm)]
  simp [listMean_replicate_zero, List.map_replicate, List.sum_replicate]

/-- C7: for a nonzero base price, `calculate_percentage_change` returns
exactly `(other - base) / base * 100`; in particular it maps (100, 110) to
10 and (100, 90) to -10. -/
theorem percentage_change_formula (base other : ℝ) (h : base ≠ 0) :
    calculate_percentage_change base other =
        Except.ok ((other - base) / base * 100) ∧
      calculate_percentage_change 100 110 = Except.ok 10 ∧
      calculate_percentage_change 100 90 = Except.ok (-10) := by
  refine ⟨?_, ?_, ?_⟩
  · simp [calculate_percentage_change, h]
  · norm_num [calculate_percentage_change]
  · norm_num [calculate_percentage_change]

/-- Witness for C7 at a concrete input. -/
theorem percentage_change_formula_witness :
    calculate_percentage_change 100 110 =
        Except.ok (((110:ℝ) - 100) / 100 * 100) ∧
      calculate_percentage_change 100 110 = Except.ok 10 ∧
      calculate_percentage_change 100 90 = Except.ok (-10) :=
  percentage_change_formula 100 110 (by norm_num)

/-- C8: with base price zero, `calculate_percentage_change` fails with the
division-by-zero error (Python raises `ZeroDivisionError`) for every other
price, rather than returning a numeric value. -/
theorem percentage_change_zero_base (other : ℝ) :
    calculate_percentage_change 0 other =
      Except.error PriceError.divisionByZero := by
  simp [calculate_percentage_change]

/-- C4 counterexample: the two-point constant price series `[100, 100]`
has at least 2 points, yet `calculate_volatility` evaluates to NaN
(modelled `none`) — the single return has no sample standard deviation
with `ddof = 1` — so the result is neither `0` nor a value `≥ 0`. -/
theorem volatility_two_points_nan :
    calculate_volatility [100, 100] = none ∧
      calculate_volatility [100, 100] ≠ some 0 := by
  have h : calculate_volatility [100, 100] = none := by
    norm_num [calculate_volatility, sampleStd, pct_change]
  exact ⟨h, by rw [h]; simp⟩

/-- C4 amended: for every positive price series with at least 3 points,
`calculate_volatility` returns the sample standard deviation (ddof = 1) of
the period-over-period returns multiplied by `√252`, a value `≥ 0`; and for
a constant positive series of length at least 3 it returns exactly 0. -/
theorem calculate_volatility_spec (prices : List ℝ) (n : ℕ) (c : ℝ)
    (h3 : 3 ≤ prices.length) (hpos : ∀ p ∈ prices, 0 < p)
    (hn : 3 ≤ n) (hc : 0 < c) :
    (∃ v, calculate_volatility prices = some v ∧ 0 ≤ v ∧
        v = Real.sqrt (((pct_change prices).map
            (fun x => (x - listMean (pct_change prices)) ^ 2)).sum /
          (((pct_change prices).length : ℝ) - 1)) * Real.sqrt 252) ∧
      calculate_volatility (List.replicate n c) = some 0 := by
  constructor
  · have hlen : 2 ≤ (pct_change prices).length := by
      rw [pct_change_length]; omega
    refine ⟨Real.sqrt (((pct_change prices).map
        (fun x => (x - listMean (pct_change prices)) ^ 2)).sum /
      (((pct_change prices).length : ℝ) - 1)) * Real.sqrt 252, ?_, ?_, rfl⟩
    · rw [calculate_volatility, sampleStd, if_pos hlen]
      rfl
    · exact mul_nonneg (Real.sqrt_nonneg _) (Real.sqrt_nonneg _)
  · rw [calculate_volatility, pct_change_replicate,
      sampleStd_replicate_zero (n - 1) (by omega)]
    simp

/-- Witness for C4 (amended) at a concrete input. -/
theorem calculate_volatility_spec_witness :
    (∃ v, calculate_volatility [1, 2, 3] = some v ∧ 0 ≤ v ∧
        v = Real.sqrt (((pct_change [1, 2, 3]).map
            (fun x => (x - listMean (pct_change [1, 2, 3])) ^ 2)).sum /
          (((pct_change [1, 2, 3]).length : ℝ) - 1)) * Real.sqrt 252) ∧
      calculate_volatility (List.replicate 3 (5:ℝ)) = some 0 :=
  calculate_volatility_spec [1, 2, 3] 3 5 (by decide)
    (by intro p hp; simp only [List.mem_cons, List.not_mem_nil, or_false] at hp
        rcases hp with rfl | rfl | rfl <;> norm_num)
    (by decide) (by norm_num)

/-- C5 (code bug): for a single-point price series the Python code returns
NaN (modelled `none`) silently — pandas `std` of the empty return series —
instead of raising `InsufficientDataError` as the specification requires. -/
theorem volatility_single_point_nan :
    calculate_volatility [100] = none := by
  norm_num [calculate_volatility, sampleStd, pct_change]

/-! ## Claim theorems: target probability and DIF26 analysis -/

theorem countGE_le_length (target : ℝ) (l : List ℝ) : countGE target l ≤ l.length := by
  induction l with
  | nil => simp [countGE]
  | cons x xs ih =>
    rw [countGE]
    by_cases h : target ≤ x
    · simp only [if_pos h, List.length_cons]
      omega
    · simp only [if_neg h, List.length_cons]
      omega

theorem countGE_anti (t1 t2 : ℝ) (l : List ℝ) (h : t1 ≤ t2) :
    countGE t2 l ≤ countGE t1 l := by
  induction l with
  | nil => simp [countGE]
  | cons x xs ih =>
    rw [countGE, countGE]
    by_cases h2 : t2 ≤ x
    · simp only [if_pos h2, if_pos (le_trans h h2)]
      omega
    · simp only [if_neg h2]
      by_cases h1 : t1 ≤ x
      · simp only [if_pos h1]; omega
      · simp only [if_neg h1]; omega

theorem terminal_prices_length (matrix : List (List ℝ)) :
    (terminal_prices matrix).length = matrix.length := by
  simp [terminal_prices]

/-- C6: for a fixed simulation matrix with at least one trial, the estimated
target-hit probability lies in `[0, 1]` and is monotonically non-increasing
in the target price. -/
theorem estimate_probability_bounds_anti (matrix : List (List ℝ)) (t1 t2 : ℝ)
    (hm : 1 ≤ matrix.length) (ht : t1 ≤ t2) :
    (0 ≤ estimate_target_probability matrix t1 ∧
        estimate_target_probability matrix t1 ≤ 1) ∧
      (0 ≤ estimate_target_probability matrix t2 ∧
        estimate_target_probability matrix t2 ≤ 1) ∧
      estimate_target_probability matrix t2 ≤ estimate_target_probability matrix t1 := by
  have hlen : (0:ℝ) < (matrix.length : ℝ) := by
    exact_mod_cast Nat.lt_of_lt_of_le Nat.zero_lt_one hm
  have hbounds : ∀ t : ℝ, 0 ≤ estimate_target_probability matrix t ∧
      estimate_target_probability matrix t ≤ 1 := by
    intro t
    constructor
    · exact div_nonneg (Nat.cast_nonneg _) (Nat.cast_nonneg _)
    · rw [estimate_target_probability, div_le_one hlen]
      have := countGE_le_length t (terminal_prices matrix)
      rw [terminal_prices_length] at this
      exact_mod_cast this
  refine ⟨hbounds t1, hbounds t2, ?_⟩
  rw [estimate_target_probability, estimate_target_probability,
    div_le_div_iff_of_pos_right hlen]
  exact_mod_cast countGE_anti t1 t2 (terminal_prices matrix) ht

/-- Witness for C6 at a concrete input. -/
theorem estimate_probability_bounds_anti_witness :
    (0 ≤ estimate_target_probability [[1], [3]] 2 ∧
        estimate_target_probability [[1], [3]] 2 ≤ 1) ∧
      (0 ≤ estimate_target_probability [[1], [3]] 4 ∧
        estimate_target_probability [[1], [3]] 4 ≤ 1) ∧
      estimate_target_probability [[1], [3]] 4 ≤
        estimate_target_probability [[1], [3]] 2 :=
  estimate_probability_bounds_anti [[1], [3]] 2 4 (by decide) (by norm_num)

/-- C9: the DIF26 analysis aligns the two series by inner join on shared
dates, and when no date is shared the alignment is empty and the function
returns the explicit insufficient-data result, computing no correlation and
throwing nothing (the function is total). -/
theorem analyze_dif26_no_overlap (stock dif26 : List (ℕ × ℝ))
    (h : ∀ dp ∈ stock, List.lookup dp.1 dif26 = none) :
    align_series stock dif26 = [] ∧
      analyze_dif26_impact stock dif26 = Dif26Analysis.insufficientData := by
  have ha : align_series stock dif26 = [] := by
    rw [align_series, List.filterMap_eq_nil_iff]
    intro dp hdp
    rw [h dp hdp]
    rfl
  exact ⟨ha, by rw [analyze_dif26_impact, ha]; rfl⟩

/-- Witness for C9 at a concrete input with no shared date. -/
theorem analyze_dif26_no_overlap_witness :
    align_series [(1, 10)] [(2, 5)] = [] ∧
      analyze_dif26_impact [(1, 10)] [(2, 5)] = Dif26Analysis.insufficientData :=
  analyze_dif26_no_overlap [(1, 10)] [(2, 5)]
    (by intro dp hdp
        simp only [List.mem_singleton] at hdp
        subst hdp
        rfl)

end B3
